import Mathlib

/-!
Verification development for the w40k-duel repository.

Shallow embedding of the combat-resolution and duel-room code:
  - src/internal/engine/dice.go        (rollExpr)
  - src/internal/game/shooting.go      (woundTarget, bestSaveThreshold)
  - src/internal/game/types.go         (ResolveShooting wound-threshold / Anti-X logic)
  - src/cmd/game/main.go               (woundNeeded, resolveWeaponStep save threshold,
                                        save_rolls handler, roomStartAttackSequence,
                                        queue message handler, parseAP, mustAtoi)

Go ints are modelled as Lean Int (overflow is irrelevant to the claims);
the random source is modelled as a stream of naturals, with each call
rand.Intn(n) reading the next stream value modulo n.
-/

/-- Go helper max(a,b) from src/cmd/game/main.go. -/
def gomax (a b : Int) : Int := if a > b then a else b

/-- Go helper min(a,b) from src/cmd/game/main.go. -/
def gomin (a b : Int) : Int := if a < b then a else b

/-- Go helper clamp(lo,hi,v) from src/cmd/game/main.go. -/
def clamp (lo hi v : Int) : Int := if v < lo then lo else if v > hi then hi else v

/-- d6() = rand.Intn(6)+1; the i-th draw of the stream. -/
def d6At (rng : Nat → Nat) (i : Nat) : Int := 1 + ((rng i % 6 : Nat) : Int)

/-- woundNeeded(S,T) from src/cmd/game/main.go (Go switch, first case wins). -/
def woundNeeded (S T : Int) : Int :=
  if S ≥ 2 * T then 2
  else if S > T then 3
  else if S = T then 4
  else if S * 2 ≤ T then 6
  else 5

/-- woundTarget(S,T) from src/internal/game/shooting.go (same switch). -/
def woundTarget (S T : Int) : Int :=
  if S ≥ 2 * T then 2
  else if S > T then 3
  else if S = T then 4
  else if S * 2 ≤ T then 6
  else 5

/-- The wound-target table as the spec words it (ordered chain):
2 if S ≥ 2T, 3 if S > T, 4 if S = T, 6 if 2S ≤ T, else 5. -/
def specWoundTarget (S T : Int) : Int :=
  if S ≥ 2 * T then 2
  else if S > T then 3
  else if S = T then 4
  else if 2 * S ≤ T then 6
  else 5

/-- bestSaveThreshold(sv,inv,ap) from src/internal/game/shooting.go:
eff := sv - ap, clamped below to 2, above 6 becomes 7 (no save),
invulnerable used when positive and numerically lower. -/
def bestSaveThreshold (sv inv ap : Int) : Int :=
  let eff := sv - ap
  let eff := if eff < 2 then 2 else eff
  let eff := if eff > 6 then 7 else eff
  if inv > 0 ∧ inv < eff then inv else eff

/-- The save threshold of resolveWeaponStep, src/cmd/game/main.go lines 1624-1629:
armourNeed := clamp(2, 6, Sv+AP); saveNeed := armourNeed;
if InvSv > 0 then saveNeed = min(saveNeed, InvSv).  AP here is the
positive magnitude produced by parseAP. -/
def roomSaveNeed (sv ap inv : Int) : Int :=
  let armourNeed := clamp 2 6 (sv + ap)
  if inv > 0 then gomin armourNeed inv else armourNeed

/-- The save threshold as the spec words it: armor save modified by the
weapon's AP (data convention: AP is negative, so sv - ap), clamped to
[2,7] with 7 meaning no save; invulnerable used instead when the
defender has one and it is numerically lower. -/
def specSaveThreshold (sv ap inv : Int) : Int :=
  let eff := clamp 2 7 (sv - ap)
  if inv > 0 ∧ inv < eff then inv else eff

/-! String machinery for the Go parsing code (ASCII-faithful). -/

/-- Whitespace trimmed by Go strings.TrimSpace (ASCII part). -/
def isGoSpace (c : Char) : Bool :=
  c = ' ' || c = '\t' || c = '\n' || c = '\r' || c.toNat = 11 || c.toNat = 12

/-- Whitespace matched by the regexp class backslash-s: tab, newline, formfeed, CR, space. -/
def isReSpace (c : Char) : Bool :=
  c = ' ' || c = '\t' || c = '\n' || c = '\r' || c.toNat = 12

/-- strings.TrimSpace on a character list. -/
def trimSpaceL (s : List Char) : List Char :=
  ((s.dropWhile isGoSpace).reverse.dropWhile isGoSpace).reverse

/-- ASCII digit test (regexp backslash-d and Go digit comparisons). -/
def isDigitC (c : Char) : Bool := '0' ≤ c && c ≤ '9'

/-- Value of a digit run, most significant first. -/
def digitsVal (ds : List Char) : Nat :=
  ds.foldl (fun acc c => acc * 10 + (c.toNat - 48)) 0

/-- Largest int64, the bound strconv.Atoi enforces. -/
def int64Max : Int := 9223372036854775807

/-- Smallest int64. -/
def int64Min : Int := -9223372036854775808

/-- strconv.Atoi: optional sign, then a non-empty digit run, in int64 range. -/
def goAtoi (s : List Char) : Option Int :=
  match s with
  | [] => none
  | c :: rest =>
    let neg : Bool := c = '-'
    let ds : List Char := if c = '-' || c = '+' then rest else s
    if ds.isEmpty then none
    else if ds.all isDigitC then
      let v : Int := if neg then -(digitsVal ds : Int) else (digitsVal ds : Int)
      if v < int64Min || int64Max < v then none else some v
    else none

/-- Result of matching the dice regexp of src/internal/engine/dice.go:
optional count digits, a d, side digits, optional (+, -, x, X or *) with
a constant. -/
structure DiceE where
  count : Nat
  sides : Nat
  modOp : Option (Char × Nat)
deriving Repr, DecidableEq

/-- The regexp of dice.go, (?i)^\s*(\d+)?\s*d\s*(\d+)(\s*([+\-x*])\s*(\d+))?\s*$,
as a deterministic recognizer (the count defaults to 1 when absent). -/
def parseDice (s : List Char) : Option DiceE :=
  let s1 := s.dropWhile isReSpace
  let p1 := s1.span isDigitC
  let s2 := p1.2.dropWhile isReSpace
  match s2 with
  | [] => none
  | c :: s3 =>
    if c = 'd' || c = 'D' then
      let p2 := (s3.dropWhile isReSpace).span isDigitC
      if p2.1.isEmpty then none
      else
        let cnt := if p1.1.isEmpty then 1 else digitsVal p1.1
        let sides := digitsVal p2.1
        let s4 := p2.2.dropWhile isReSpace
        match s4 with
        | [] => some ⟨cnt, sides, none⟩
        | op :: s5 =>
          if op = '+' || op = '-' || op = 'x' || op = 'X' || op = '*' then
            let p3 := (s5.dropWhile isReSpace).span isDigitC
            if p3.1.isEmpty then none
            else if (p3.2.dropWhile isReSpace).isEmpty then
              some ⟨cnt, sides, some (op, digitsVal p3.1)⟩
            else none
          else none
    else none

/-- The dice-summing loop of rollExpr, src/internal/engine/dice.go: the
sum of count draws of 1+Intn(sides), with the plus, minus or times
modifier applied (an uppercase X falls through the Go switch unhandled). -/
def diceTotal (rng : Nat → Nat) (d : DiceE) : Int :=
  let base : Int := (((List.range d.count).map (fun i => 1 + rng i % d.sides)).sum : Nat)
  match d.modOp with
  | none => base
  | some (op, k) =>
    if op = '+' then base + (k : Int)
    else if op = '-' then base - (k : Int)
    else if op = 'x' || op = '*' then base * (k : Int)
    else base

/-- rollExpr from src/internal/engine/dice.go over a character list.
none models the rand.Intn panic when sides = 0 and at least one die is
drawn; otherwise: the empty trimmed string yields 0, a plain integer is
returned verbatim, an unmatched expression yields 0, and a matched dice
expression yields its modified total floored at 0. -/
def rollExprL (rng : Nat → Nat) (s : List Char) : Option Int :=
  let t := trimSpaceL s
  if t.isEmpty then some 0
  else
    match goAtoi t with
    | some n => some n
    | none =>
      match parseDice t with
      | none => some 0
      | some d =>
        if d.sides = 0 && 1 ≤ d.count then none
        else some (if diceTotal rng d < 0 then 0 else diceTotal rng d)

/-- rollExpr on a string. -/
def rollExpr (rng : Nat → Nat) (expr : String) : Option Int :=
  rollExprL rng expr.toList

/-- The digit-scan fallback of mustAtoi in src/cmd/game/main.go: collect a
leading minus (position 0 only) and the first contiguous digit run. -/
def mustAtoiScan : List Char → Nat → List Char → List Char
  | [], _, num => num
  | c :: t, i, num =>
    if (c = '-' && i = 0) || isDigitC c then mustAtoiScan t (i + 1) (num ++ [c])
    else if !num.isEmpty then num
    else mustAtoiScan t (i + 1) num

/-- mustAtoi(s, def) from src/cmd/game/main.go: trim, strip one trailing
plus sign, Atoi, then fall back to the first integer found in the string,
then to the default. -/
def mustAtoi (s : List Char) (dflt : Int) : Int :=
  let s := trimSpaceL s
  if s.isEmpty then dflt
  else
    let s2 := if s.getLast? = some '+' then s.dropLast else s
    match goAtoi s2 with
    | some n => n
    | none =>
      match goAtoi (mustAtoiScan s 0 []) with
      | some n => n
      | none => dflt

/-- parseAP from src/cmd/game/main.go: the AP column (stored as "-X") is
converted to a positive save-roll modifier. -/
def parseAP (s : List Char) : Int :=
  if s.isEmpty then 0
  else
    let ap := mustAtoi s 0
    if ap < 0 then -ap else ap

/-- strings.ToLower on a character list (ASCII). -/
def toLowerL (s : List Char) : List Char := s.map Char.toLower

/-- strings.Contains: needle occurs as a contiguous substring of hay. -/
def containsStr : List Char → List Char → Bool
  | hay@(_ :: t), needle => needle.isPrefixOf hay || containsStr t needle
  | [], needle => needle.isEmpty

/-- strings.SplitN(s, " ", 2): split at the first space, if any. -/
def splitN2Space (s : List Char) : List (List Char) :=
  let p := s.span (fun c => c != ' ')
  match p.2 with
  | [] => [s]
  | _ :: rest => [p.1, rest]

/-- The per-ability Anti parse of ResolveShooting (src/internal/game/types.go
lines 194-210): lowercase, require the "anti-" prefix, split once on a
space into keyword and threshold, read the threshold from a trailing-plus
token, and accept only a non-empty keyword with threshold in [2,6]. -/
def parseAnti (a : List Char) : Option (List Char × Int) :=
  let al := toLowerL a
  if ("anti-".toList).isPrefixOf al then
    match splitN2Space (al.drop 5) with
    | [k, v] =>
      let kw := trimSpaceL k
      let sv := trimSpaceL v
      let tn : Int :=
        if 2 ≤ sv.length ∧ sv.getLast? = some '+' then
          match goAtoi (trimSpaceL sv.dropLast) with
          | some n => n
          | none => 0
        else 0
      if !kw.isEmpty && (2 ≤ tn && tn ≤ 6) then some (kw, tn) else none
    | _ => none
  else none

/-- Does some defender keyword contain the (lowercased) anti keyword,
case-insensitive substring containment as in types.go line 213. -/
def kwMatches (kws : List String) (kw : List Char) : Bool :=
  kws.any (fun dk => containsStr (toLowerL dk.toList) kw)

/-- The accumulating loop over weapon abilities of ResolveShooting
(types.go lines 191-224): antiTN starts at 0 and is replaced by a parsed
threshold whenever the defender keyword matches and the new threshold is
the first one or strictly smaller. -/
def antiAccum (kws : List String) : List String → Int → Int
  | [], acc => acc
  | a :: rest, acc =>
    let acc' :=
      match parseAnti a.toList with
      | some (kw, tn) =>
        if kwMatches kws kw && (acc = 0 || tn < acc) then tn else acc
      | none => acc
    antiAccum kws rest acc'

/-- The Anti threshold ResolveShooting derives from the weapon abilities
and defender keywords (0 when no applicable Anti ability). -/
def antiTNOf (abilities kws : List String) : Int := antiAccum kws abilities 0

/-- The wound threshold ResolveShooting uses (types.go lines 187-228):
the natural strength-vs-toughness target, overridden by the Anti
threshold only when that is positive and strictly lower. -/
def resolveWoundTNShooting (abilities kws : List String) (S T : Int) : Int :=
  let nat := woundTarget S T
  let anti := antiTNOf abilities kws
  if 0 < anti ∧ anti < nat then anti else nat

/-- The thresholds of abilities that parse as Anti and whose keyword is
contained in some defender keyword (specification-level candidate list
used to characterize antiTNOf). -/
def antiCandidates : List String → List String → List Int
  | [], _ => []
  | a :: rest, kws =>
    match parseAnti a.toList with
    | some (kw, tn) =>
      if kwMatches kws kw then tn :: antiCandidates rest kws
      else antiCandidates rest kws
    | none => antiCandidates rest kws

/-- The wound threshold of the live room path, resolveWeaponStep
(src/cmd/game/main.go lines 1549-1553): the Anti value applies whenever
it is at least 2 — the defender's keywords are not consulted. -/
def roomWoundTarget (S T antiValue : Int) : Int :=
  let wt := woundNeeded S T
  if antiValue ≥ 2 then gomin wt antiValue else wt

/-! The duel-room state machine of src/cmd/game/main.go. -/

/-- The Unit fields the save and wound paths read. -/
structure UnitR where
  T : Int
  Sv : Int
  InvSv : Int
  FNP : Int
  DamageRed : Int
deriving Repr, DecidableEq

/-- The Player fields the room handlers read or write. -/
structure PlayerR where
  id : String
  wounds : Int
  unit : UnitR
deriving Repr, DecidableEq

/-- The Room fields of src/cmd/game/main.go that the attack and save
handlers touch.  attackQueue is an Option to keep Go's nil-slice versus
empty-slice distinction. -/
structure RoomS where
  finished : Bool
  winner : String
  turn : String
  phase : String
  pendingSaves : Int
  pendingNeed : Int
  pendingDmg : Int
  pendingBy : String
  attackQueue : Option (List String)
  attackIndex : Int
  currentWeapon : String
  p1 : PlayerR
  p2 : PlayerR
deriving Repr, DecidableEq

/-- The defender the save handlers pick (main.go lines 1321-1324):
P1 unless P1 holds the turn, then P2. -/
def defenderOf (r : RoomS) : PlayerR :=
  if r.p1.id = r.turn then r.p2 else r.p1

/-- The guard of the save_rolls handler (main.go lines 1316-1328): the
room must not be finished, must be in the save phase with a positive
pending count, and the submission must come from the defender. -/
def saveGuardOK (r : RoomS) (pid : String) : Bool :=
  !r.finished && r.phase = "save" && decide (0 < r.pendingSaves)
    && (defenderOf r).id = pid

/-- The server-side d6 padding rolls (main.go lines 1332-1336), one per
pending save. -/
def padRolls (r : RoomS) (rng : Nat → Nat) : List Int :=
  (List.range r.pendingSaves.toNat).map (fun i => d6At rng i)

/-- The roll list the handler counts: the submitted list, or fresh
padding only when the submission is empty. -/
def rollsUsedOf (r : RoomS) (bodyRolls : List Int) (rng : Nat → Nat) : List Int :=
  if bodyRolls.isEmpty then padRolls r rng else bodyRolls

/-- Unsaved count (main.go lines 1338-1347): every submitted value rv
with rv < need, over the whole list. -/
def unsavedOf (need : Int) (rolls : List Int) : Int :=
  (((rolls.filter (fun rv => decide (rv < need))).length : Nat) : Int)

/-- Damage before Feel No Pain (main.go line 1348):
unsaved * max(1, max(1, PendingDmg) - DamageRed). -/
def dmgPreOf (r : RoomS) (unsaved : Int) : Int :=
  unsaved * gomax 1 (gomax 1 r.pendingDmg - (defenderOf r).unit.DamageRed)

/-- Feel-No-Pain ignored count (main.go lines 1349-1355): when FNP ≥ 2
and damage is positive, one d6 per damage point, ignoring on
roll ≥ FNP; the stream is read after the padding draws. -/
def fnpIgnored (fnp total : Int) (rng : Nat → Nat) (off : Nat) : Int :=
  if 2 ≤ fnp ∧ 0 < total then
    ((((List.range total.toNat).filter
        (fun i => decide (fnp ≤ d6At rng (off + i)))).length : Nat) : Int)
  else 0

/-- Damage after Feel No Pain (main.go lines 1356-1359): subtracted and
floored at 0 only when something was ignored. -/
def dmgAppliedOf (pre ignored : Int) : Int :=
  if 0 < ignored then gomax 0 (pre - ignored) else pre

/-- Observables of one save submission: the updated room plus the local
variables (rolls, unsaved, totalDmg before and after Feel No Pain) the
handler computes. -/
structure SaveOutcome where
  room : RoomS
  processed : Bool
  rollsUsed : List Int
  unsaved : Int
  dmgPreFNP : Int
  dmgApplied : Int
deriving Repr, DecidableEq

/-- The tail of the save handler (main.go lines 1385-1403): when the
room is not finished and more weapons remain, advance the cursor to the
next weapon; when not finished and the queue is done, flip the turn and
drop the queue; a finished room is left as is.  rOld carries the queue
and player fields read by this step. -/
def advanceAfterSave (rOld base : RoomS) (fin : Bool) : RoomS :=
  let midQ : Bool :=
    match rOld.attackQueue with
    | some q => decide (rOld.attackIndex + 1 < (q.length : Int))
    | none => false
  if !fin && midQ then
    { base with
      attackIndex := rOld.attackIndex + 1
      currentWeapon := (rOld.attackQueue.getD []).getD (rOld.attackIndex + 1).toNat "" }
  else if !fin then
    { base with
      turn := if rOld.turn = rOld.p1.id then rOld.p2.id else rOld.p1.id
      attackQueue := none
      attackIndex := 0
      currentWeapon := "" }
  else base

/-- The save_rolls handler of wsReader (src/cmd/game/main.go lines
1309-1414) and its twin wsReaderHandleSave (lines 1831-1946), which
apply exactly the same state transition: guard, pad an empty
submission, count unsaved, damage = unsaved times per-wound damage
floored at 1, Feel No Pain, decrement defender wounds floored at 0,
finish when they reach 0, clear the pending-save record, then advance
the attack queue or flip the turn. -/
def handleSaveRolls (r : RoomS) (pid : String) (bodyRolls : List Int)
    (rng : Nat → Nat) : SaveOutcome :=
  if saveGuardOK r pid then
    let defender := defenderOf r
    let rolls := rollsUsedOf r bodyRolls rng
    let fnpOff : Nat := if bodyRolls.isEmpty then r.pendingSaves.toNat else 0
    let unsaved := unsavedOf r.pendingNeed rolls
    let pre := dmgPreOf r unsaved
    let ign := fnpIgnored defender.unit.FNP pre rng fnpOff
    let dmg := dmgAppliedOf pre ign
    let defender' : PlayerR := { defender with wounds := gomax 0 (defender.wounds - dmg) }
    let fin : Bool := decide (defender'.wounds ≤ 0)
    let defIsP2 : Bool := r.p1.id = r.turn
    let base : RoomS := { r with
      p1 := if defIsP2 then r.p1 else defender'
      p2 := if defIsP2 then defender' else r.p2
      finished := fin
      winner := if fin then r.turn else r.winner
      pendingSaves := 0
      pendingNeed := 0
      pendingDmg := 0
      pendingBy := ""
      phase := "" }
    ⟨advanceAfterSave r base fin, true, rolls, unsaved, pre, dmg⟩
  else ⟨r, false, [], 0, 0, 0⟩

/-- roomStartAttackSequence (src/cmd/game/main.go lines 1422-1457) up to
the weapon-queue installation: reject when finished or out of turn;
reject while the save phase is pending or a queue is mid-flight; else
set phase to attack and install the queue built from the loadout
(falling back to the single active weapon); with no weapons the phase
flip is the only change. -/
def startAttack (r : RoomS) (attackerId : String) (loadWeapons : List String)
    (loadWeapon : String) : RoomS :=
  if r.finished || r.turn ≠ attackerId then r
  else
    let midQ : Bool :=
      match r.attackQueue with
      | some q => decide (r.attackIndex < (q.length : Int))
      | none => false
    if r.phase = "save" || midQ then r
    else
      let r1 := { r with phase := "attack" }
      let queue := if !loadWeapons.isEmpty then loadWeapons
                   else if loadWeapon ≠ "" then [loadWeapon] else []
      if queue.isEmpty then r1
      else { r1 with attackQueue := some queue, attackIndex := 0,
                     currentWeapon := queue.headD "" }

/-- The Feel-No-Pain count of the mortal-damage path of resolveWeaponStep
(src/cmd/game/main.go lines 1635-1641): when FNP ≥ 2, one d6 per mortal
point, each roll at or above the threshold ignoring one. -/
def mortIgnored (fnp mortals : Int) (rng : Nat → Nat) : Int :=
  if 2 ≤ fnp then
    ((((List.range mortals.toNat).filter
        (fun i => decide (fnp ≤ d6At rng i))).length : Nat) : Int)
  else 0

/-- The mortal damage left after Feel No Pain (main.go lines 1642-1645):
subtracted and floored at 0 only when something was ignored. -/
def mortDmg (mortals ign : Int) : Int :=
  if 0 < ign then gomax 0 (mortals - ign) else mortals

/-- The mortal-damage application of resolveWeaponStep (src/cmd/game/main.go
lines 1630-1652): when mortals are positive, Feel No Pain may ignore
some, then the defender wounds drop by the remainder, floored at 0. -/
def applyMortals (wounds fnp mortals : Int) (rng : Nat → Nat) : Int :=
  if 0 < mortals then
    gomax 0 (wounds - mortDmg mortals (mortIgnored fnp mortals rng))
  else wounds

/-- The queue message handler of wsReader (src/cmd/game/main.go lines
1292-1305): it records the wants-AI flag and unconditionally appends the
player to the matchmaking queue; the room the player may already be in
(the playersIndex lookup available at line 1243) is not consulted. -/
def handleQueueMsg (queue : List String) (pid : String) (wantsAI : Bool)
    (roomOfPlayer : Option String) : List String :=
  queue ++ [pid]

/-! Concrete fixtures used by counterexamples and witnesses. -/

/-- A fixed random stream (every draw 0, so every d6 shows 1). -/
def zeroRng : Nat → Nat := fun _ => 0

/-- Attacker fixture. -/
def pAtt : PlayerR := ⟨"a", 10, ⟨4, 3, 0, 0, 0⟩⟩

/-- Defender fixture: Damage Reduction 1, no Feel No Pain, 5 wounds. -/
def pDef : PlayerR := ⟨"b", 5, ⟨4, 3, 0, 0, 1⟩⟩

/-- A room suspended in the save phase: 2 pending saves at 4+, 1 damage
per wound, attacker a to move. -/
def roomSave : RoomS :=
  ⟨false, "", "a", "save", 2, 4, 1, "a", none, 0, "gun", pAtt, pDef⟩

/-- A room suspended in the save phase with 3 pending saves. -/
def roomSave3 : RoomS :=
  ⟨false, "", "a", "save", 3, 4, 1, "a", none, 0, "gun", pAtt, pDef⟩

/-! Helper lemmas. -/

lemma le_gomax_left (a b : Int) : a ≤ gomax a b := by
  unfold gomax; split <;> omega

lemma le_gomax_right (a b : Int) : b ≤ gomax a b := by
  unfold gomax; split <;> omega

lemma gomax_zero_nonneg (x : Int) : 0 ≤ gomax 0 x :=
  le_gomax_left 0 x

lemma gomax_zero_le (w d : Int) (hw : 0 ≤ w) (hd : 0 ≤ d) :
    gomax 0 (w - d) ≤ w := by
  unfold gomax; split <;> omega

lemma unsavedOf_nonneg (need : Int) (rolls : List Int) :
    0 ≤ unsavedOf need rolls := by
  unfold unsavedOf; exact Int.natCast_nonneg _

lemma dmgPreOf_nonneg (r : RoomS) (u : Int) (hu : 0 ≤ u) :
    0 ≤ dmgPreOf r u := by
  unfold dmgPreOf
  have h1 : (0 : Int) ≤ gomax 1 (gomax 1 r.pendingDmg - (defenderOf r).unit.DamageRed) :=
    le_trans (by norm_num) (le_gomax_left 1 _)
  exact mul_nonneg hu h1

lemma dmgAppliedOf_nonneg (pre ign : Int) (h : 0 ≤ pre) :
    0 ≤ dmgAppliedOf pre ign := by
  unfold dmgAppliedOf gomax; split_ifs <;> omega

lemma dmgAppliedOf_le (pre ign : Int) (h : 0 ≤ pre) :
    dmgAppliedOf pre ign ≤ pre := by
  unfold dmgAppliedOf gomax; split_ifs <;> omega

lemma handleSave_processed_iff (r : RoomS) (pid : String) (rolls : List Int)
    (rng : Nat → Nat) :
    (handleSaveRolls r pid rolls rng).processed = saveGuardOK r pid := by
  by_cases h : saveGuardOK r pid = true
  · simp [handleSaveRolls, h]
  · simp only [Bool.not_eq_true] at h
    simp [handleSaveRolls, h]

lemma handleSave_not_processed (r : RoomS) (pid : String) (rolls : List Int)
    (rng : Nat → Nat) (h : saveGuardOK r pid = false) :
    handleSaveRolls r pid rolls rng = ⟨r, false, [], 0, 0, 0⟩ := by
  simp [handleSaveRolls, h]

lemma handleSave_rollsUsed (r : RoomS) (pid : String) (rolls : List Int)
    (rng : Nat → Nat) (h : saveGuardOK r pid = true) :
    (handleSaveRolls r pid rolls rng).rollsUsed = rollsUsedOf r rolls rng := by
  simp [handleSaveRolls, h]

lemma handleSave_unsaved (r : RoomS) (pid : String) (rolls : List Int)
    (rng : Nat → Nat) (h : saveGuardOK r pid = true) :
    (handleSaveRolls r pid rolls rng).unsaved =
      unsavedOf r.pendingNeed (rollsUsedOf r rolls rng) := by
  simp [handleSaveRolls, h]

lemma handleSave_pre (r : RoomS) (pid : String) (rolls : List Int)
    (rng : Nat → Nat) (h : saveGuardOK r pid = true) :
    (handleSaveRolls r pid rolls rng).dmgPreFNP =
      dmgPreOf r (unsavedOf r.pendingNeed (rollsUsedOf r rolls rng)) := by
  simp [handleSaveRolls, h]

lemma handleSave_dmg (r : RoomS) (pid : String) (rolls : List Int)
    (rng : Nat → Nat) (h : saveGuardOK r pid = true) :
    (handleSaveRolls r pid rolls rng).dmgApplied =
      dmgAppliedOf (dmgPreOf r (unsavedOf r.pendingNeed (rollsUsedOf r rolls rng)))
        (fnpIgnored (defenderOf r).unit.FNP
          (dmgPreOf r (unsavedOf r.pendingNeed (rollsUsedOf r rolls rng))) rng
          (if rolls.isEmpty then r.pendingSaves.toNat else 0)) := by
  simp [handleSaveRolls, h]

lemma advanceAfterSave_p1 (rOld base : RoomS) (fin : Bool) :
    (advanceAfterSave rOld base fin).p1 = base.p1 := by
  simp only [advanceAfterSave, apply_ite RoomS.p1]
  simp

lemma advanceAfterSave_p2 (rOld base : RoomS) (fin : Bool) :
    (advanceAfterSave rOld base fin).p2 = base.p2 := by
  simp only [advanceAfterSave, apply_ite RoomS.p2]
  simp

lemma advanceAfterSave_pendingSaves (rOld base : RoomS) (fin : Bool) :
    (advanceAfterSave rOld base fin).pendingSaves = base.pendingSaves := by
  simp only [advanceAfterSave, apply_ite RoomS.pendingSaves]
  simp

lemma advanceAfterSave_phase (rOld base : RoomS) (fin : Bool) :
    (advanceAfterSave rOld base fin).phase = base.phase := by
  simp only [advanceAfterSave, apply_ite RoomS.phase]
  simp

lemma handleSave_room_cleared (r : RoomS) (pid : String) (rolls : List Int)
    (rng : Nat → Nat) (h : saveGuardOK r pid = true) :
    (handleSaveRolls r pid rolls rng).room.pendingSaves = 0 ∧
    (handleSaveRolls r pid rolls rng).room.phase = "" := by
  simp [handleSaveRolls, h, advanceAfterSave_pendingSaves, advanceAfterSave_phase]

lemma handleSave_defWounds (r : RoomS) (pid : String) (rolls : List Int)
    (rng : Nat → Nat) (h : saveGuardOK r pid = true) :
    (if r.p1.id = r.turn then (handleSaveRolls r pid rolls rng).room.p2.wounds
     else (handleSaveRolls r pid rolls rng).room.p1.wounds) =
      gomax 0 ((defenderOf r).wounds - (handleSaveRolls r pid rolls rng).dmgApplied) := by
  by_cases hd : r.p1.id = r.turn <;>
    simp [handleSaveRolls, h, hd, advanceAfterSave_p1, advanceAfterSave_p2]

lemma handleSave_atkWounds (r : RoomS) (pid : String) (rolls : List Int)
    (rng : Nat → Nat) (h : saveGuardOK r pid = true) :
    (if r.p1.id = r.turn then (handleSaveRolls r pid rolls rng).room.p1
     else (handleSaveRolls r pid rolls rng).room.p2) =
      (if r.p1.id = r.turn then r.p1 else r.p2) := by
  by_cases hd : r.p1.id = r.turn <;>
    simp [handleSaveRolls, h, hd, advanceAfterSave_p1, advanceAfterSave_p2]

/-! Claim theorems. -/

/-- C4 (confirmed): for all strengths and toughnesses, the wound target
of woundNeeded (src/cmd/game/main.go) and woundTarget
(src/internal/game/shooting.go) equals the spec's ordered table — 2 if
S ≥ 2T, 3 if S > T, 4 if S = T, 6 if 2S ≤ T, else 5 — and the five
worked examples hold: S=8,T=4 gives 2+; S=5,T=4 gives 3+; S=4,T=4 gives
4+; S=3,T=8 gives 6+; S=4,T=6 gives 5+. -/
theorem C4_woundTable :
    (∀ S T : Int, woundNeeded S T = specWoundTarget S T) ∧
    (∀ S T : Int, woundTarget S T = woundNeeded S T) ∧
    woundNeeded 8 4 = 2 ∧ woundNeeded 5 4 = 3 ∧ woundNeeded 4 4 = 4 ∧
    woundNeeded 3 8 = 6 ∧ woundNeeded 4 6 = 5 := by
  refine ⟨?_, fun S T => rfl, by decide, by decide, by decide, by decide, by decide⟩
  intro S T
  simp only [woundNeeded, specWoundTarget]
  split_ifs <;> omega

/-- C5 counterexample: the claim says the save threshold used in the
save phase is the armor save modified by AP clamped to [2,7] with 7
meaning no save; but the live save phase (resolveWeaponStep,
src/cmd/game/main.go line 1625) clamps to [2,6], so with Sv=6 and an
AP of magnitude 3 (catalog value "-3", which parseAP turns into +3) and
no invulnerable, the room asks for 6+ saves while the claimed formula —
and bestSaveThreshold in src/internal/game/shooting.go — yields 7, no
save at all. -/
theorem C5_counterexample :
    parseAP "-3".toList = 3 ∧
    roomSaveNeed 6 3 0 = 6 ∧
    specSaveThreshold 6 (-3) 0 = 7 ∧
    bestSaveThreshold 6 0 (-3) = 7 ∧
    roomSaveNeed 6 3 0 ≠ specSaveThreshold 6 (-3) 0 := by decide

/-- C5 amended: bestSaveThreshold implements exactly the claimed formula
(armor save minus AP, clamped to [2,7] with 7 = no save, invulnerable
used when present and numerically lower); the live room save phase
instead stores AP as a positive magnitude and clamps Sv+AP to [2,6], so
its threshold never exceeds 6 and a save on a 6 always remains possible;
the worked examples hold on both paths: Sv=3 with catalog AP "-1" gives
4+, and an invulnerable 4+ beats a computed 5+ armor save. -/
theorem C5_saveThreshold_amended :
    (∀ sv inv ap : Int, bestSaveThreshold sv inv ap = specSaveThreshold sv ap inv) ∧
    (∀ sv ap inv : Int, roomSaveNeed sv ap inv ≤ 6) ∧
    bestSaveThreshold 3 0 (-1) = 4 ∧
    roomSaveNeed 3 (parseAP "-1".toList) 0 = 4 ∧
    bestSaveThreshold 3 4 (-2) = 4 ∧
    roomSaveNeed 3 2 4 = 4 := by
  refine ⟨?_, ?_, by decide, by decide, by decide, by decide⟩
  · intro sv inv ap
    simp only [bestSaveThreshold, specSaveThreshold, clamp]
    split_ifs <;> omega
  · intro sv ap inv
    simp only [roomSaveNeed, clamp, gomin]
    split_ifs <;> omega

/-- C9 counterexample: a participant who is already in an active room
(the room lookup is available to the handler) and repeats a queue
request is appended to the matchmaking queue — nothing hands back the
existing room. -/
theorem C9_counterexample :
    handleQueueMsg [] "p1" false (some "room_1") = ["p1"] ∧
    "p1" ∈ handleQueueMsg [] "p1" false (some "room_1") := by
  refine ⟨rfl, ?_⟩
  simp [handleQueueMsg]

/-- C9 amended: a queue request always re-enqueues the sender: the
handler appends the player id to the matchmaking queue, and its result
is independent of whether the player is already in an active room. -/
theorem C9_queue_amended :
    (∀ q pid ai room, handleQueueMsg q pid ai room = q ++ [pid]) ∧
    (∀ q pid ai room1 room2,
        handleQueueMsg q pid ai room1 = handleQueueMsg q pid ai room2) ∧
    (∀ q pid ai room, pid ∈ handleQueueMsg q pid ai room) := by
  refine ⟨fun _ _ _ _ => rfl, fun _ _ _ _ _ => rfl, ?_⟩
  intro q pid ai room
  simp [handleQueueMsg]

/-- C3 (confirmed): an attack request that arrives while a save is
pending, or while an attack queue is mid-flight, or from a player whose
turn it is not, is rejected by roomStartAttackSequence and leaves the
whole room state — in particular the pending-save record, the turn
pointer and the attack-queue cursor — unchanged. -/
theorem C3_attackRejected (r : RoomS) (aid : String) (lw : List String)
    (aw : String)
    (h : r.phase = "save" ∨
         (∃ q, r.attackQueue = some q ∧ r.attackIndex < (q.length : Int)) ∨
         r.turn ≠ aid) :
    startAttack r aid lw aw = r := by
  unfold startAttack
  by_cases h1 : r.finished = true
  · simp [h1]
  · by_cases h2 : r.turn = aid
    · rcases h with hs | hm | ht
      · simp [h1, h2, hs]
      · obtain ⟨q, hq, hlt⟩ := hm
        simp [h1, h2, hq, hlt]
      · exact absurd h2 ht
    · simp [h1, h2]

/-- C3 witness at a concrete room suspended in the save phase. -/
theorem C3_attackRejected_witness :
    startAttack roomSave "a" ["gun"] "gun" = roomSave :=
  C3_attackRejected roomSave "a" ["gun"] "gun" (Or.inl rfl)

lemma saveGuardOK_iff (r : RoomS) (pid : String) :
    saveGuardOK r pid = true ↔
      (r.finished = false ∧ r.phase = "save" ∧ 0 < r.pendingSaves ∧
       (defenderOf r).id = pid) := by
  simp [saveGuardOK, and_assoc]

lemma handleSave_dmg_nonneg (r : RoomS) (pid : String) (rolls : List Int)
    (rng : Nat → Nat) (h : saveGuardOK r pid = true) :
    0 ≤ (handleSaveRolls r pid rolls rng).dmgApplied := by
  rw [handleSave_dmg r pid rolls rng h]
  exact dmgAppliedOf_nonneg _ _ (dmgPreOf_nonneg _ _ (unsavedOf_nonneg _ _))

/-- C1 counterexample: the claim floors the per-wound subtraction at 0,
but the handler computes unsaved * max(1, damage - reduction): with
pending damage 1 and Damage Reduction 1 and two failed saves, the code
deals 2 damage (wounds 5 -> 3) where the claimed formula deals 0. -/
theorem C1_counterexample :
    (handleSaveRolls roomSave "b" [1, 1] zeroRng).processed = true ∧
    (handleSaveRolls roomSave "b" [1, 1] zeroRng).unsaved = 2 ∧
    (handleSaveRolls roomSave "b" [1, 1] zeroRng).dmgPreFNP = 2 ∧
    (handleSaveRolls roomSave "b" [1, 1] zeroRng).room.p2.wounds = 3 ∧
    (handleSaveRolls roomSave "b" [1, 1] zeroRng).unsaved *
      gomax 0 (roomSave.pendingDmg - (defenderOf roomSave).unit.DamageRed) = 0 ∧
    (handleSaveRolls roomSave "b" [1, 1] zeroRng).dmgPreFNP ≠
      (handleSaveRolls roomSave "b" [1, 1] zeroRng).unsaved *
        gomax 0 (roomSave.pendingDmg - (defenderOf roomSave).unit.DamageRed) := by
  decide

/-- C1 amended: on every processed save submission the damage computed
before Feel No Pain equals the unsaved count times
max(1, max(1, pendingDmg) - DamageRed) — the per-wound subtraction is
floored at 1, not 0 — after which Feel No Pain can only lower it (never
below 0) and the defender's wounds drop by the mitigated damage, floored
at 0. -/
theorem C1_saveDamage_amended (r : RoomS) (pid : String) (rolls : List Int)
    (rng : Nat → Nat)
    (h : (handleSaveRolls r pid rolls rng).processed = true) :
    (handleSaveRolls r pid rolls rng).dmgPreFNP =
      (handleSaveRolls r pid rolls rng).unsaved *
        gomax 1 (gomax 1 r.pendingDmg - (defenderOf r).unit.DamageRed) ∧
    (handleSaveRolls r pid rolls rng).dmgApplied ≤
      (handleSaveRolls r pid rolls rng).dmgPreFNP ∧
    0 ≤ (handleSaveRolls r pid rolls rng).dmgApplied ∧
    (if r.p1.id = r.turn then (handleSaveRolls r pid rolls rng).room.p2.wounds
     else (handleSaveRolls r pid rolls rng).room.p1.wounds) =
      gomax 0 ((defenderOf r).wounds - (handleSaveRolls r pid rolls rng).dmgApplied) := by
  rw [handleSave_processed_iff] at h
  refine ⟨?_, ?_, handleSave_dmg_nonneg r pid rolls rng h,
    handleSave_defWounds r pid rolls rng h⟩
  · rw [handleSave_pre r pid rolls rng h, handleSave_unsaved r pid rolls rng h]
    rfl
  · rw [handleSave_dmg r pid rolls rng h, handleSave_pre r pid rolls rng h]
    exact dmgAppliedOf_le _ _ (dmgPreOf_nonneg _ _ (unsavedOf_nonneg _ _))

/-- C1 witness at a concrete processed submission. -/
theorem C1_saveDamage_amended_witness :
    (handleSaveRolls roomSave "b" [1, 1] zeroRng).dmgPreFNP =
      (handleSaveRolls roomSave "b" [1, 1] zeroRng).unsaved *
        gomax 1 (gomax 1 roomSave.pendingDmg - (defenderOf roomSave).unit.DamageRed) :=
  (C1_saveDamage_amended roomSave "b" [1, 1] zeroRng (by decide)).1

/-- C2 counterexample: a save submission of one roll against three
pending saves is not padded: the handler processes the single roll
as-is, so the rolls counted are fewer than the pending count. -/
theorem C2_counterexample :
    roomSave3.pendingSaves = 3 ∧
    (handleSaveRolls roomSave3 "b" [6] zeroRng).processed = true ∧
    (handleSaveRolls roomSave3 "b" [6] zeroRng).rollsUsed = [6] ∧
    (((handleSaveRolls roomSave3 "b" [6] zeroRng).rollsUsed.length : Int)
      ≠ roomSave3.pendingSaves) := by
  decide

/-- C2 amended: the handler pads a submission with fresh server-side d6
rolls, one per pending save, only when the submitted list is empty; a
non-empty list — shorter or longer than the pending count — is used
exactly as submitted; in every processed case the pending-save record is
cleared and the save phase ends. -/
theorem C2_savePadding_amended (r : RoomS) (pid : String) (rolls : List Int)
    (rng : Nat → Nat)
    (h : (handleSaveRolls r pid rolls rng).processed = true) :
    (rolls ≠ [] → (handleSaveRolls r pid rolls rng).rollsUsed = rolls) ∧
    (rolls = [] →
      (handleSaveRolls r pid rolls rng).rollsUsed = padRolls r rng ∧
      (((handleSaveRolls r pid rolls rng).rollsUsed.length : Int)
        = r.pendingSaves)) ∧
    (handleSaveRolls r pid rolls rng).room.pendingSaves = 0 ∧
    (handleSaveRolls r pid rolls rng).room.phase = "" := by
  rw [handleSave_processed_iff] at h
  have hcl := handleSave_room_cleared r pid rolls rng h
  have hru := handleSave_rollsUsed r pid rolls rng h
  refine ⟨?_, ?_, hcl.1, hcl.2⟩
  · intro hne
    rw [hru]
    simp [rollsUsedOf, hne]
  · intro he
    subst he
    rw [hru]
    have hpos : 0 < r.pendingSaves := ((saveGuardOK_iff r pid).mp h).2.2.1
    constructor
    · simp [rollsUsedOf]
    · simp only [rollsUsedOf, List.isEmpty_nil, if_true, padRolls,
        List.length_map, List.length_range]
      omega

/-- C2 witness: an empty submission is padded to the pending count and a
non-empty short submission is used as-is. -/
theorem C2_savePadding_amended_witness :
    (handleSaveRolls roomSave3 "b" [] zeroRng).rollsUsed = padRolls roomSave3 zeroRng ∧
    (((handleSaveRolls roomSave3 "b" [] zeroRng).rollsUsed.length : Int)
      = roomSave3.pendingSaves) ∧
    (handleSaveRolls roomSave3 "b" [6] zeroRng).rollsUsed = [6] ∧
    (handleSaveRolls roomSave3 "b" [6] zeroRng).room.pendingSaves = 0 := by
  have h1 := C2_savePadding_amended roomSave3 "b" [] zeroRng (by decide)
  have h2 := C2_savePadding_amended roomSave3 "b" [6] zeroRng (by decide)
  exact ⟨(h1.2.1 rfl).1, (h1.2.1 rfl).2, h2.1 (by decide), h2.2.2.1⟩

/-- C10 (confirmed): a processed non-empty save submission is counted
whole: the rolls used are exactly the submitted list (no truncation to
the pending count and no 1..6 validation), a value is unsaved exactly
when it is below the pending threshold — so a submitted 7 always saves
and a 0 or negative value always fails against thresholds in 2..6 — and
that unsaved count over the whole list feeds the damage computation, so
it can exceed the recorded pending wound count. -/
theorem C10_saveCounting (r : RoomS) (pid : String) (rolls : List Int)
    (rng : Nat → Nat) (hne : rolls ≠ [])
    (h : (handleSaveRolls r pid rolls rng).processed = true) :
    (handleSaveRolls r pid rolls rng).rollsUsed = rolls ∧
    (handleSaveRolls r pid rolls rng).unsaved =
      (((rolls.filter (fun rv => decide (rv < r.pendingNeed))).length : Nat) : Int) ∧
    (handleSaveRolls r pid rolls rng).dmgPreFNP =
      (handleSaveRolls r pid rolls rng).unsaved *
        gomax 1 (gomax 1 r.pendingDmg - (defenderOf r).unit.DamageRed) := by
  rw [handleSave_processed_iff] at h
  have hru : (handleSaveRolls r pid rolls rng).rollsUsed = rolls := by
    rw [handleSave_rollsUsed r pid rolls rng h]
    simp [rollsUsedOf, hne]
  refine ⟨hru, ?_, ?_⟩
  · rw [handleSave_unsaved r pid rolls rng h]
    simp [unsavedOf, rollsUsedOf, hne]
  · rw [handleSave_pre r pid rolls rng h, handleSave_unsaved r pid rolls rng h]
    rfl

/-- C10 witness: four submitted values against two pending saves at 4+
are all counted — the 7 saves, the 0 fails — giving three unsaved, more
than the recorded pending count. -/
theorem C10_saveCounting_witness :
    (handleSaveRolls roomSave "b" [7, 0, 3, 1] zeroRng).rollsUsed = [7, 0, 3, 1] ∧
    (handleSaveRolls roomSave "b" [7, 0, 3, 1] zeroRng).unsaved = 3 ∧
    roomSave.pendingSaves = 2 ∧
    roomSave.pendingSaves < (handleSaveRolls roomSave "b" [7, 0, 3, 1] zeroRng).unsaved := by
  have h := C10_saveCounting roomSave "b" [7, 0, 3, 1] zeroRng (by decide) (by decide)
  refine ⟨h.1, h.2.1.trans (by decide), by decide, ?_⟩
  rw [h.2.1]
  decide

/-- C8 (confirmed): starting from non-negative wound counters, a save
resolution leaves both players' wounds non-negative and not above their
previous value, and the mortal-damage application of resolveWeaponStep
does the same for the defender: every damage application decrements by a
non-negative amount and floors at 0, so wounds-remaining never goes
negative and, being non-increasing step by step, never exceeds the
starting wounds. -/
theorem C8_woundsBounds :
    (∀ (r : RoomS) (pid : String) (rolls : List Int) (rng : Nat → Nat),
      0 ≤ r.p1.wounds → 0 ≤ r.p2.wounds →
      (0 ≤ (handleSaveRolls r pid rolls rng).room.p1.wounds ∧
       (handleSaveRolls r pid rolls rng).room.p1.wounds ≤ r.p1.wounds) ∧
      (0 ≤ (handleSaveRolls r pid rolls rng).room.p2.wounds ∧
       (handleSaveRolls r pid rolls rng).room.p2.wounds ≤ r.p2.wounds)) ∧
    (∀ (w fnp m : Int) (rng : Nat → Nat), 0 ≤ w → 0 ≤ m →
      0 ≤ applyMortals w fnp m rng ∧ applyMortals w fnp m rng ≤ w) := by
  constructor
  · intro r pid rolls rng h1 h2
    by_cases hg : saveGuardOK r pid = true
    · have hdmg := handleSave_dmg_nonneg r pid rolls rng hg
      have hdw := handleSave_defWounds r pid rolls rng hg
      have haw := handleSave_atkWounds r pid rolls rng hg
      by_cases hd : r.p1.id = r.turn
      · have hp1 : (handleSaveRolls r pid rolls rng).room.p1 = r.p1 := by
          simpa [hd] using haw
        have hp2 : (handleSaveRolls r pid rolls rng).room.p2.wounds =
            gomax 0 (r.p2.wounds - (handleSaveRolls r pid rolls rng).dmgApplied) := by
          simpa [hd, defenderOf] using hdw
        rw [hp1, hp2]
        exact ⟨⟨h1, le_refl _⟩, gomax_zero_nonneg _, gomax_zero_le _ _ h2 hdmg⟩
      · have hp2 : (handleSaveRolls r pid rolls rng).room.p2 = r.p2 := by
          simpa [hd] using haw
        have hp1 : (handleSaveRolls r pid rolls rng).room.p1.wounds =
            gomax 0 (r.p1.wounds - (handleSaveRolls r pid rolls rng).dmgApplied) := by
          simpa [hd, defenderOf] using hdw
        rw [hp1, hp2]
        exact ⟨⟨gomax_zero_nonneg _, gomax_zero_le _ _ h1 hdmg⟩, h2, le_refl _⟩
    · rw [handleSave_not_processed r pid rolls rng (by simpa using hg)]
      exact ⟨⟨h1, le_refl _⟩, h2, le_refl _⟩
  · intro w fnp m rng hw hm
    unfold applyMortals
    split_ifs with h0
    · have hign : 0 ≤ mortIgnored fnp m rng := by
        unfold mortIgnored
        split_ifs
        · exact Int.natCast_nonneg _
        · exact le_refl 0
      have hdmg : 0 ≤ mortDmg m (mortIgnored fnp m rng) := by
        unfold mortDmg
        split_ifs
        · exact gomax_zero_nonneg _
        · exact hm
      exact ⟨gomax_zero_nonneg _, gomax_zero_le _ _ hw hdmg⟩
    · exact ⟨hw, le_refl _⟩

/-- C8 witness at a concrete save resolution and mortal application. -/
theorem C8_woundsBounds_witness :
    (0 ≤ (handleSaveRolls roomSave "b" [1, 1] zeroRng).room.p2.wounds ∧
     (handleSaveRolls roomSave "b" [1, 1] zeroRng).room.p2.wounds ≤ roomSave.p2.wounds) ∧
    (0 ≤ applyMortals 5 0 3 zeroRng ∧ applyMortals 5 0 3 zeroRng ≤ 5) := by
  have h1 := C8_woundsBounds.1 roomSave "b" [1, 1] zeroRng (by decide) (by decide)
  have h2 := C8_woundsBounds.2 5 0 3 zeroRng (by decide) (by decide)
  exact ⟨h1.2, h2⟩

lemma antiAccum_mem (kws : List String) :
    ∀ (abs : List String) (acc : Int),
      antiAccum kws abs acc = acc ∨ antiAccum kws abs acc ∈ antiCandidates abs kws := by
  intro abs
  induction abs with
  | nil => intro acc; exact Or.inl rfl
  | cons a rest ih =>
    intro acc
    cases hpa : parseAnti a.data with
    | none =>
      have hstep : antiAccum kws (a :: rest) acc = antiAccum kws rest acc := by
        simp [antiAccum, hpa]
      have hcand : antiCandidates (a :: rest) kws = antiCandidates rest kws := by
        simp [antiCandidates, hpa]
      rw [hstep, hcand]
      exact ih acc
    | some p =>
      obtain ⟨kw, tn⟩ := p
      by_cases hkm : kwMatches kws kw = true
      · have hcand : antiCandidates (a :: rest) kws = tn :: antiCandidates rest kws := by
          simp [antiCandidates, hpa, hkm]
        by_cases hc : (acc = 0 ∨ tn < acc)
        · have hstep : antiAccum kws (a :: rest) acc = antiAccum kws rest tn := by
            simp [antiAccum, hpa, hkm, hc]
          rw [hstep, hcand]
          rcases ih tn with h | h
          · exact Or.inr (by rw [h]; exact List.mem_cons_self _ _)
          · exact Or.inr (List.mem_cons_of_mem _ h)
        · have hstep : antiAccum kws (a :: rest) acc = antiAccum kws rest acc := by
            simp [antiAccum, hpa, hkm, hc]
          rw [hstep, hcand]
          rcases ih acc with h | h
          · exact Or.inl h
          · exact Or.inr (List.mem_cons_of_mem _ h)
      · have hkm' : kwMatches kws kw = false := by simpa using hkm
        have hcand : antiCandidates (a :: rest) kws = antiCandidates rest kws := by
          simp [antiCandidates, hpa, hkm']
        have hstep : antiAccum kws (a :: rest) acc = antiAccum kws rest acc := by
          simp [antiAccum, hpa, hkm']
        rw [hstep, hcand]
        exact ih acc

lemma antiAccum_of_empty (kws : List String) :
    ∀ (abs : List String) (acc : Int),
      antiCandidates abs kws = [] → antiAccum kws abs acc = acc := by
  intro abs
  induction abs with
  | nil => intro acc _; rfl
  | cons a rest ih =>
    intro acc hemp
    cases hpa : parseAnti a.data with
    | none =>
      have hcand : antiCandidates (a :: rest) kws = antiCandidates rest kws := by
        simp [antiCandidates, hpa]
      have hstep : antiAccum kws (a :: rest) acc = antiAccum kws rest acc := by
        simp [antiAccum, hpa]
      rw [hstep]
      exact ih acc (hcand ▸ hemp)
    | some p =>
      obtain ⟨kw, tn⟩ := p
      by_cases hkm : kwMatches kws kw = true
      · have hcand : antiCandidates (a :: rest) kws = tn :: antiCandidates rest kws := by
          simp [antiCandidates, hpa, hkm]
        rw [hcand] at hemp
        exact absurd hemp (List.cons_ne_nil _ _)
      · have hkm' : kwMatches kws kw = false := by simpa using hkm
        have hcand : antiCandidates (a :: rest) kws = antiCandidates rest kws := by
          simp [antiCandidates, hpa, hkm']
        have hstep : antiAccum kws (a :: rest) acc = antiAccum kws rest acc := by
          simp [antiAccum, hpa, hkm']
        rw [hstep]
        exact ih acc (hcand ▸ hemp)

/-- C6 counterexample: in the live room path (resolveWeaponStep,
src/cmd/game/main.go lines 1549-1553, whose comment reads "we don't
check tag matching yet") the Anti value overrides the wound threshold
without consulting the defender's keywords: with S=4 vs T=8 the natural
threshold is 6+, yet an Anti (2+) weapon wounds on 2+ through that path
against any defender — while ResolveShooting, given the same ability and
a defender with no matching keyword, keeps the natural 6+. -/
theorem C6_counterexample :
    roomWoundTarget 4 8 2 = 2 ∧
    woundNeeded 4 8 = 6 ∧
    roomWoundTarget 4 8 2 ≠ woundNeeded 4 8 ∧
    antiCandidates ["anti-fly 2+"] [] = [] ∧
    resolveWoundTNShooting ["anti-fly 2+"] [] 4 8 = 6 := by decide

/-- C6 amended: neither path ever loosens the natural wound threshold;
in ResolveShooting the override happens only through an Anti ability
whose keyword is contained in a defender keyword and only when strictly
stricter (a defender without a matching keyword keeps the natural
threshold); in the live room path the Anti value at least 2 applies
regardless of the defender's keywords. -/
theorem C6_anti_amended :
    (∀ S T a : Int, roomWoundTarget S T a ≤ woundNeeded S T) ∧
    (∀ (abilities kws : List String) (S T : Int),
        resolveWoundTNShooting abilities kws S T ≤ woundTarget S T) ∧
    (∀ (abilities kws : List String) (S T : Int),
        antiCandidates abilities kws = [] →
        resolveWoundTNShooting abilities kws S T = woundTarget S T) ∧
    (∀ (abilities kws : List String) (S T : Int),
        resolveWoundTNShooting abilities kws S T ≠ woundTarget S T →
        resolveWoundTNShooting abilities kws S T ∈ antiCandidates abilities kws ∧
        resolveWoundTNShooting abilities kws S T < woundTarget S T) := by
  refine ⟨?_, ?_, ?_, ?_⟩
  · intro S T a
    simp only [roomWoundTarget, gomin]
    split_ifs <;> omega
  · intro abilities kws S T
    simp only [resolveWoundTNShooting]
    split_ifs <;> omega
  · intro abilities kws S T hemp
    simp only [resolveWoundTNShooting, antiTNOf]
    rw [antiAccum_of_empty kws abilities 0 hemp]
    simp
  · intro abilities kws S T hne
    simp only [resolveWoundTNShooting] at hne ⊢
    split_ifs at hne ⊢ with hcond
    · rcases antiAccum_mem kws abilities 0 with h | h
      · rw [antiTNOf] at hcond
        rw [h] at hcond
        omega
      · exact ⟨h, hcond.2⟩
    · exact absurd rfl hne

/-- C6 witness: a defender without the anti keyword keeps the natural
4+ threshold; a defender carrying a containing keyword is wounded at the
stricter 3+ drawn from the candidate list. -/
theorem C6_anti_amended_witness :
    resolveWoundTNShooting ["anti-vehicle 3+"] ["Infantry"] 4 4 = woundTarget 4 4 ∧
    (resolveWoundTNShooting ["anti-vehicle 3+"] ["Heavy Vehicle"] 4 4 ∈
        antiCandidates ["anti-vehicle 3+"] ["Heavy Vehicle"] ∧
     resolveWoundTNShooting ["anti-vehicle 3+"] ["Heavy Vehicle"] 4 4 < woundTarget 4 4) :=
  ⟨C6_anti_amended.2.2.1 ["anti-vehicle 3+"] ["Infantry"] 4 4 (by decide),
   C6_anti_amended.2.2.2 ["anti-vehicle 3+"] ["Heavy Vehicle"] 4 4 (by decide)⟩

/-- C7 counterexample: rollExpr returns plain integers verbatim, so the
input "-5" — a plain integer in the claim's own input taxonomy — yields
the negative total -5 rather than a non-negative one. -/
theorem C7_counterexample :
    rollExpr zeroRng "-5" = some (-5) ∧ (-5 : Int) < 0 := by decide

/-- C7 amended: for every input string the evaluator never returns a
negative total except for a plain integer literal, which strconv.Atoi
parses and rollExpr returns verbatim; the empty (trimmed) string and any
string matching neither Atoi nor the dice regexp yield 0; the one way it
can fail is the rand.Intn panic on a zero-sided dice expression such as
"d0" (modelled as none). -/
theorem C7_rollExpr_amended :
    (∀ (rng : Nat → Nat) (s : List Char) (n : Int),
        rollExprL rng s = some n → 0 ≤ n ∨ goAtoi (trimSpaceL s) = some n) ∧
    (∀ (rng : Nat → Nat) (s : List Char),
        rollExprL rng s = none →
        ∃ d, parseDice (trimSpaceL s) = some d ∧ d.sides = 0 ∧ 1 ≤ d.count) ∧
    (∀ (rng : Nat → Nat) (s : List Char),
        goAtoi (trimSpaceL s) = none → parseDice (trimSpaceL s) = none →
        rollExprL rng s = some 0) ∧
    (∀ rng : Nat → Nat, rollExpr rng "" = some 0) := by
  refine ⟨?_, ?_, ?_, fun rng => rfl⟩
  · intro rng s n h
    simp only [rollExprL] at h
    by_cases he : (trimSpaceL s).isEmpty = true
    · rw [if_pos he, Option.some_inj] at h
      left
      omega
    · rw [if_neg he] at h
      cases hg : goAtoi (trimSpaceL s) with
      | some m =>
        simp only [hg] at h
        right
        exact h
      | none =>
        simp only [hg] at h
        cases hd : parseDice (trimSpaceL s) with
        | none =>
          simp only [hd, Option.some_inj] at h
          left
          omega
        | some d =>
          simp only [hd] at h
          split_ifs at h with hz ht
          · left
            injection h with h
            omega
          · left
            injection h with h
            omega
  · intro rng s h
    simp only [rollExprL] at h
    by_cases he : (trimSpaceL s).isEmpty = true
    · rw [if_pos he] at h
      simp at h
    · rw [if_neg he] at h
      cases hg : goAtoi (trimSpaceL s) with
      | some m =>
        simp only [hg] at h
        simp at h
      | none =>
        simp only [hg] at h
        cases hd : parseDice (trimSpaceL s) with
        | none =>
          simp only [hd] at h
          simp at h
        | some d =>
          simp only [hd] at h
          split_ifs at h with hz
          exact ⟨d, rfl, by simpa using hz⟩
  · intro rng s hg hd
    simp only [rollExprL]
    by_cases he : (trimSpaceL s).isEmpty = true
    · rw [if_pos he]
    · rw [if_neg he]
      simp only [hg, hd]

/-- C7 witness: a dice expression whose modifier drives the total
negative is clamped to 0 (never negative), the zero-sided expression
"d0" is the panic case, and an unrecognized string falls back to 0. -/
theorem C7_rollExpr_amended_witness :
    ((0 : Int) ≤ 0 ∨ goAtoi (trimSpaceL "2d6-99".toList) = some 0) ∧
    (∃ d, parseDice (trimSpaceL "d0".toList) = some d ∧ d.sides = 0 ∧ 1 ≤ d.count) ∧
    rollExprL zeroRng "foo".toList = some 0 :=
  ⟨C7_rollExpr_amended.1 zeroRng "2d6-99".toList 0 (by decide),
   C7_rollExpr_amended.2.1 zeroRng "d0".toList (by decide),
   C7_rollExpr_amended.2.2.1 zeroRng "foo".toList (by decide) (by decide)⟩
